import Mathlib

/-!
Shallow embedding of the file-upload widget of `nextjs-image-converter`
(`src/widget/file-upload/ui/file-upload.widget.tsx`).

The widget keeps a React state `selectedFiles : ISelectedFile[]`, where each
`ISelectedFile` is a JavaScript object `{ file, convertTarget }`.  JavaScript
object identity matters to the handlers (`findIndex` with `===`, `filter` with
`!==`, and an in-place field assignment), so the embedding models the object
store explicitly: items live in a heap indexed by `Nat` references, and the
`selectedFiles` array is a list of references into that heap.

Event handlers are pure functions from the state (plus the event payload) to a
new state together with the list of toast notifications fired, in order.
External collaborators are parameters: `prettyBytes` is an opaque formatting
function `fmtB : Nat -> String`, `uuid.v4` is an opaque stream of identifiers
`gen : Nat -> String` (the value returned by the n-th call in a submission),
and the configuration constants `MAX_FILE_SIZE` / `MAX_FILES_LENGTH` are
parameters `maxFileSize` / `maxFilesLength`.
-/

/-- The metadata of a browser `File` handle: `name`, `size`, `type`. -/
structure FileData where
  name : String
  size : Nat
  type : String
deriving DecidableEq, Repr

/-- The fields of an `ISelectedFile` object: the raw file and the optional
target format (`convertTarget?: keyof FormatEnum`); `none` models an unset
target.  Object identity is the heap reference, not this record. -/
structure SelectedFileData where
  file : FileData
  convertTarget : Option String
deriving DecidableEq, Repr

/-- A toast notification fired through `useToastNotify`, with the payload the
widget passes along (`file_type_warn`, `max_size_warn`, `max_files_warn`,
`target_warn`). -/
inductive Notif where
  | fileTypeWarn (name : String)
  | maxSizeWarn (formattedMax : String) (name : String)
  | maxFilesWarn (quantity : Nat)
  | targetWarn
deriving DecidableEq, Repr

/-- A value appended to the `FormData`: either a raw file or a string. -/
inductive FormValue where
  | file (f : FileData)
  | str (s : String)
deriving DecidableEq, Repr

/-- One `formData.append(name, value)` entry. -/
abbrev FormEntry := String × FormValue

/-- The widget state: the object heap for `ISelectedFile` objects, the
`selectedFiles` array as a list of heap references, the next fresh reference,
and the `isLoading` flag exposed by `useSendSelectedFiles`. -/
structure WidgetState where
  heap : Nat → SelectedFileData
  selectedFiles : List Nat
  nextRef : Nat
  isLoading : Bool

/-- Character-level model of JavaScript `String.prototype.startsWith` /
Lean `String.startsWith`: is `pre` a prefix of `s`? -/
def strStartsWith (s pre : String) : Bool :=
  pre.data.isPrefixOf s.data

/-- The filter of `onFileSelectHandle` (lines 36-59): keeps a file only when
its MIME type starts with `"image/"` and its size is within `maxFileSize`,
warning (in file order) `file_type_warn` for non-images and `max_size_warn`
(with the `prettyBytes`-formatted ceiling) for oversized images.  The type
check runs first, exactly as in the source. -/
def filterIncomingFiles (maxFileSize : Nat) (fmtB : Nat → String) :
    List FileData → List FileData × List Notif
  | [] => ([], [])
  | f :: fs =>
    let rest := filterIncomingFiles maxFileSize fmtB fs
    if ¬ strStartsWith f.type "image/" then
      (rest.1, Notif.fileTypeWarn f.name :: rest.2)
    else if f.size > maxFileSize then
      (rest.1, Notif.maxSizeWarn (fmtB maxFileSize) f.name :: rest.2)
    else
      (f :: rest.1, rest.2)

/-- Modelled from the spec: the helper `createSelectedFiles` imported from
`../helpers` is not among the provided sources.  Per the spec (sections 3 and
4.2), it wraps each newly accepted file in a fresh `SelectedFile` object whose
`convertTarget` is initially unset; its dedup behaviour is declared out of
scope by the spec and is not modelled.  Here it allocates fresh heap
references starting at `next`. -/
def createSelectedFiles (next : Nat) : List FileData → List (Nat × SelectedFileData)
  | [] => []
  | f :: fs => (next, ⟨f, none⟩) :: createSelectedFiles (next + 1) fs

/-- Extend a heap with newly allocated objects. -/
def updHeap (h : Nat → SelectedFileData) (es : List (Nat × SelectedFileData)) :
    Nat → SelectedFileData :=
  fun r =>
    match es.find? (fun e => e.1 == r) with
    | some e => e.2
    | none => h r

/-- `onFileSelectHandle` (lines 31-73): early-return on an empty selection;
filter the incoming files; if the already-selected count exceeds
`maxFilesLength` or combined with the accepted count would exceed it, fire one
`max_files_warn` and truncate the accepted batch (`splice(0, max - len)`,
i.e. `take (maxFilesLength - length)` with JavaScript clamping a negative
delete count to zero, matching truncated `Nat` subtraction); finally append
the freshly created `ISelectedFile` objects to `selectedFiles`. -/
def onFileSelectHandle (maxFileSize maxFilesLength : Nat) (fmtB : Nat → String)
    (incoming : List FileData) (s : WidgetState) : WidgetState × List Notif :=
  if incoming.isEmpty then (s, [])
  else
    let fr := filterIncomingFiles maxFileSize fmtB incoming
    let over : Bool :=
      decide (s.selectedFiles.length > maxFilesLength) ||
      decide (fr.1.length + s.selectedFiles.length > maxFilesLength)
    let newFiles := if over then fr.1.take (maxFilesLength - s.selectedFiles.length) else fr.1
    let warns := if over then fr.2 ++ [Notif.maxFilesWarn maxFilesLength] else fr.2
    let created := createSelectedFiles s.nextRef newFiles
    ({ heap := updHeap s.heap created
       selectedFiles := s.selectedFiles ++ created.map Prod.fst
       nextRef := s.nextRef + newFiles.length
       isLoading := s.isLoading }, warns)

/-- The multipart body built by `onSubmitHandle` (lines 86-93): for the item
at position `i` a fresh identifier `gen i` is drawn and two fields are
appended, `file_<id>` with the raw file and `target_<id>` with the target
format tag (`convertTarget as keyof FormatEnum`; `getD ""` models the cast of
an always-present value on this guarded path). -/
def buildFormData (gen : Nat → String) (heap : Nat → SelectedFileData) :
    Nat → List Nat → List FormEntry
  | _, [] => []
  | i, r :: rs =>
    ("file_" ++ gen i, FormValue.file (heap r).file)
      :: ("target_" ++ gen i, FormValue.str ((heap r).convertTarget.getD ""))
      :: buildFormData gen heap (i + 1) rs

/-- The outcome of a submit: the notifications fired synchronously and the
request body handed to `sendFilesToConvert` (`none` when no request is sent
and no `FormData` is built). -/
structure SubmitResult where
  notifs : List Notif
  request : Option (List FormEntry)
deriving DecidableEq, Repr

/-- `onSubmitHandle` (lines 75-103): if some selected item has no
`convertTarget` (`selectedFiles.find(({convertTarget}) => !convertTarget)`),
fire `target_warn` and return without building a `FormData`; otherwise build
the multipart body and invoke `sendFilesToConvert` with it.  The handler never
consults `isLoading`. -/
def onSubmitHandle (gen : Nat → String) (s : WidgetState) : SubmitResult :=
  if s.selectedFiles.any (fun r => ((s.heap r).convertTarget).isNone) then
    { notifs := [Notif.targetWarn], request := none }
  else
    { notifs := [], request := some (buildFormData gen s.heap 0 s.selectedFiles) }

/-- `onConvertTargetChangeHandle` (lines 105-123): locate the item by
reference identity (`findIndex` with `===`); when absent return the previous
array unchanged; when present assign `convertTarget` on the item object in
place and return a fresh array with the same elements (so the reference list
is unchanged but the heap is updated at the matched reference).  No
notification is fired. -/
def onConvertTargetChangeHandle (ref : Nat) (convertTarget : String)
    (s : WidgetState) : WidgetState × List Notif :=
  match s.selectedFiles.findIdx? (fun r => r == ref) with
  | none => (s, [])
  | some _ =>
    ({ s with heap := fun r =>
        if r == ref then { s.heap ref with convertTarget := some convertTarget }
        else s.heap r }, [])

/-- `onFilesClearHandle` (lines 125-127): reset `selectedFiles` to `[]`. -/
def onFilesClearHandle (s : WidgetState) : WidgetState × List Notif :=
  ({ s with selectedFiles := [] }, [])

/-- `onRemoveSelectedFileHandle` (lines 129-135): keep exactly the items that
are not the given object (`filter` with `!==`). -/
def onRemoveSelectedFileHandle (ref : Nat) (s : WidgetState) : WidgetState × List Notif :=
  ({ s with selectedFiles := s.selectedFiles.filter (fun r => r != ref) }, [])

/-- One state-mutating operation on the selected-files list. -/
inductive FOp where
  | select (incoming : List FileData)
  | setTarget (ref : Nat) (convertTarget : String)
  | remove (ref : Nat)
  | clear

/-- The state part of running one operation through its handler. -/
def applyFOp (maxFileSize maxFilesLength : Nat) (fmtB : Nat → String) :
    FOp → WidgetState → WidgetState
  | .select incoming, s => (onFileSelectHandle maxFileSize maxFilesLength fmtB incoming s).1
  | .setTarget r t, s => (onConvertTargetChangeHandle r t s).1
  | .remove r, s => (onRemoveSelectedFileHandle r s).1
  | .clear, s => (onFilesClearHandle s).1

/-- Is a notification the quantity warning `max_files_warn`? -/
def isMaxFilesWarn : Notif → Bool
  | .maxFilesWarn _ => true
  | _ => false

/-- Is a notification the size warning `max_size_warn`? -/
def isMaxSizeWarn : Notif → Bool
  | .maxSizeWarn _ _ => true
  | _ => false

/-- Default entry for safe list indexing in statements. -/
def dfltEntry : FormEntry := ("", FormValue.str "")

/-- A concrete empty widget state, used to instantiate theorems. -/
def emptyWState : WidgetState :=
  { heap := fun _ => ⟨⟨"", 0, ""⟩, none⟩
    selectedFiles := []
    nextRef := 0
    isLoading := false }

/-- A concrete one-item state whose single item has no target yet. -/
def oneWState : WidgetState :=
  { heap := fun _ => ⟨⟨"b.png", 5, "image/png"⟩, none⟩
    selectedFiles := [0]
    nextRef := 1
    isLoading := false }

/-- A concrete two-item state with both targets set. -/
def twoWState : WidgetState :=
  { heap := fun r =>
      if r == 0 then ⟨⟨"a.png", 3, "image/png"⟩, some "webp"⟩
      else ⟨⟨"b.jpg", 7, "image/jpeg"⟩, some "png"⟩
    selectedFiles := [0, 1]
    nextRef := 2
    isLoading := true }

/-- A concrete identifier stream with distinct first values. -/
def genW : Nat → String :=
  fun n => if n == 0 then "id0" else "id1"

/-! ## Helper lemmas -/

theorem filterIncomingFiles_sound (m : Nat) (fb : Nat → String) :
    ∀ l : List FileData, ∀ g ∈ (filterIncomingFiles m fb l).1,
      strStartsWith g.type "image/" = true ∧ g.size ≤ m := by
  intro l
  induction l with
  | nil => intro g hg; simp [filterIncomingFiles] at hg
  | cons f fs ih =>
    intro g hg
    simp only [filterIncomingFiles] at hg
    split at hg
    · exact ih g hg
    · split at hg
      · exact ih g hg
      · rename_i htype hsize
        rcases List.mem_cons.mp hg with h | h
        · subst h
          exact ⟨not_not.mp htype, by omega⟩
        · exact ih g h

theorem filterIncomingFiles_warn_type (m : Nat) (fb : Nat → String) :
    ∀ l : List FileData, ∀ f ∈ l, strStartsWith f.type "image/" = false →
      Notif.fileTypeWarn f.name ∈ (filterIncomingFiles m fb l).2 := by
  intro l
  induction l with
  | nil => intro f hf; simp at hf
  | cons g gs ih =>
    intro f hf htype
    simp only [filterIncomingFiles]
    rcases List.mem_cons.mp hf with h | h
    · subst h
      rw [if_pos (by simp [htype])]
      exact List.mem_cons_self _ _
    · split
      · exact List.mem_cons_of_mem _ (ih f h htype)
      · split
        · exact List.mem_cons_of_mem _ (ih f h htype)
        · exact ih f h htype

theorem filterIncomingFiles_warn_size (m : Nat) (fb : Nat → String) :
    ∀ l : List FileData, ∀ f ∈ l, strStartsWith f.type "image/" = true → f.size > m →
      Notif.maxSizeWarn (fb m) f.name ∈ (filterIncomingFiles m fb l).2 := by
  intro l
  induction l with
  | nil => intro f hf; simp at hf
  | cons g gs ih =>
    intro f hf htype hsize
    simp only [filterIncomingFiles]
    rcases List.mem_cons.mp hf with h | h
    · subst h
      rw [if_neg (by simp [htype]), if_pos hsize]
      exact List.mem_cons_self _ _
    · split
      · exact List.mem_cons_of_mem _ (ih f h htype hsize)
      · split
        · exact List.mem_cons_of_mem _ (ih f h htype hsize)
        · exact ih f h htype hsize

theorem filterIncomingFiles_no_maxFilesWarn (m : Nat) (fb : Nat → String) :
    ∀ l : List FileData, ((filterIncomingFiles m fb l).2).countP isMaxFilesWarn = 0 := by
  intro l
  induction l with
  | nil => rfl
  | cons f fs ih =>
    simp only [filterIncomingFiles]
    split
    · simp [List.countP_cons, isMaxFilesWarn, ih]
    · split
      · simp [List.countP_cons, isMaxFilesWarn, ih]
      · exact ih

theorem createSelectedFiles_length :
    ∀ (fs : List FileData) (n : Nat), (createSelectedFiles n fs).length = fs.length := by
  intro fs
  induction fs with
  | nil => intro n; rfl
  | cons f fs ih => intro n; simp [createSelectedFiles, ih]

theorem createSelectedFiles_ref_ge :
    ∀ (fs : List FileData) (n : Nat), ∀ e ∈ createSelectedFiles n fs, n ≤ e.1 := by
  intro fs
  induction fs with
  | nil => intro n e he; simp [createSelectedFiles] at he
  | cons f fs ih =>
    intro n e he
    rcases List.mem_cons.mp he with h | h
    · subst h; exact le_refl n
    · exact le_of_lt (lt_of_lt_of_le (Nat.lt_succ_self n) (ih (n + 1) e h))

theorem createSelectedFiles_data :
    ∀ (fs : List FileData) (n : Nat), ∀ e ∈ createSelectedFiles n fs,
      e.2.file ∈ fs ∧ e.2.convertTarget = none := by
  intro fs
  induction fs with
  | nil => intro n e he; simp [createSelectedFiles] at he
  | cons f fs ih =>
    intro n e he
    rcases List.mem_cons.mp he with h | h
    · subst h; exact ⟨List.mem_cons_self _ _, rfl⟩
    · exact ⟨List.mem_cons_of_mem _ (ih (n + 1) e h).1, (ih (n + 1) e h).2⟩

theorem updHeap_not_mem (h : Nat → SelectedFileData)
    (es : List (Nat × SelectedFileData)) (r : Nat)
    (hne : ∀ e ∈ es, e.1 ≠ r) : updHeap h es r = h r := by
  have hfind : es.find? (fun e => e.1 == r) = none := by
    rw [List.find?_eq_none]
    intro e he
    simp [hne e he]
  simp [updHeap, hfind]

theorem updHeap_mem_val (h : Nat → SelectedFileData)
    (es : List (Nat × SelectedFileData)) (r : Nat)
    (hmem : ∃ e ∈ es, e.1 = r) :
    ∃ e ∈ es, e.1 = r ∧ updHeap h es r = e.2 := by
  have hsome : (es.find? (fun e => e.1 == r)).isSome := by
    rw [List.find?_isSome]
    obtain ⟨e, he, her⟩ := hmem
    exact ⟨e, he, by simp [her]⟩
  obtain ⟨e, hfind⟩ := Option.isSome_iff_exists.mp hsome
  refine ⟨e, List.mem_of_find?_eq_some hfind, ?_, ?_⟩
  · have := List.find?_some hfind
    simpa using this
  · simp [updHeap, hfind]

theorem str_append_cancel (a b c : String) (h : a ++ b = a ++ c) : b = c := by
  have h2 := congrArg String.data h
  rw [String.data_append, String.data_append] at h2
  exact String.ext (List.append_cancel_left h2)

theorem file_name_ne_target_name (a b : String) : ("file_" ++ a) ≠ ("target_" ++ b) := by
  intro h
  have h2 := congrArg String.data h
  rw [String.data_append, String.data_append] at h2
  have hf : "file_".data = ['f', 'i', 'l', 'e', '_'] := by decide
  have ht : "target_".data = ['t', 'a', 'r', 'g', 'e', 't', '_'] := by decide
  rw [hf, ht] at h2
  simp only [List.cons_append] at h2
  injection h2 with h3 _
  exact absurd h3 (by decide)

theorem file_name_inj (a b : String) : (("file_" ++ a) = ("file_" ++ b)) ↔ a = b :=
  ⟨str_append_cancel _ _ _, fun h => by rw [h]⟩

theorem target_name_inj (a b : String) : (("target_" ++ a) = ("target_" ++ b)) ↔ a = b :=
  ⟨str_append_cancel _ _ _, fun h => by rw [h]⟩

/-- Does a form field's name carry the identifier `id`, i.e. is it one of
`file_<id>` or `target_<id>`? -/
def entryMatches (id : String) : FormEntry → Bool :=
  fun e => e.1 == ("file_" ++ id) || e.1 == ("target_" ++ id)

theorem buildFormData_length (gen : Nat → String) (heap : Nat → SelectedFileData) :
    ∀ (rs : List Nat) (i : Nat), (buildFormData gen heap i rs).length = 2 * rs.length := by
  intro rs
  induction rs with
  | nil => intro i; rfl
  | cons r rs ih =>
    intro i
    simp only [buildFormData, List.length_cons, ih]
    omega

theorem buildFormData_getD (gen : Nat → String) (heap : Nat → SelectedFileData) :
    ∀ (rs : List Nat) (i k : Nat), k < rs.length →
      (buildFormData gen heap i rs).getD (2 * k) dfltEntry =
        ("file_" ++ gen (i + k), FormValue.file (heap (rs.getD k 0)).file) ∧
      (buildFormData gen heap i rs).getD (2 * k + 1) dfltEntry =
        ("target_" ++ gen (i + k), FormValue.str ((heap (rs.getD k 0)).convertTarget.getD "")) := by
  intro rs
  induction rs with
  | nil => intro i k hk; simp at hk
  | cons r rs ih =>
    intro i k hk
    cases k with
    | zero => simp [buildFormData, List.getD]
    | succ k =>
      have h2 : 2 * (k + 1) = 2 * k + 1 + 1 := by omega
      rw [h2]
      simp only [buildFormData, List.getD_cons_succ]
      have h5 := ih (i + 1) k (by simp only [List.length_cons] at hk; omega)
      have h4 : i + 1 + k = i + (k + 1) := by omega
      rw [h4] at h5
      exact h5

theorem buildFormData_countP (gen : Nat → String) (heap : Nat → SelectedFileData) :
    ∀ (rs : List Nat) (i j : Nat),
      (∀ k, i ≤ k → k < i + rs.length → k ≠ j → gen k ≠ gen j) →
      (buildFormData gen heap i rs).countP (entryMatches (gen j)) =
        if i ≤ j ∧ j < i + rs.length then 2 else 0 := by
  intro rs
  induction rs with
  | nil =>
    intro i j _
    rw [if_neg (show ¬(i ≤ j ∧ j < i + List.length []) from by
      simp only [List.length_nil]; omega)]
    rfl
  | cons r rs ih =>
    intro i j hdist
    have htail : ∀ k, i + 1 ≤ k → k < i + 1 + rs.length → k ≠ j → gen k ≠ gen j := by
      intro k h1 h2 h3
      exact hdist k (by omega) (by simp only [List.length_cons]; omega) h3
    simp only [buildFormData, List.countP_cons]
    by_cases hij : i = j
    · subst hij
      have hm1 : entryMatches (gen i) ("file_" ++ gen i, FormValue.file (heap r).file) = true := by
        simp [entryMatches]
      have hm2 : entryMatches (gen i)
          ("target_" ++ gen i, FormValue.str ((heap r).convertTarget.getD "")) = true := by
        simp [entryMatches]
      rw [ih (i + 1) i htail, hm1, hm2]
      rw [if_neg (show ¬(i + 1 ≤ i ∧ i < i + 1 + rs.length) from by omega),
        if_pos (show i ≤ i ∧ i < i + (r :: rs).length from by
          simp only [List.length_cons]; omega)]
      simp
    · have hne : gen i ≠ gen j :=
        hdist i (le_refl i) (by simp only [List.length_cons]; omega) hij
      have hm1 : entryMatches (gen j) ("file_" ++ gen i, FormValue.file (heap r).file) = false := by
        simp only [entryMatches, Bool.or_eq_false_iff, beq_eq_false_iff_ne]
        exact ⟨fun h => hne ((file_name_inj _ _).mp h), file_name_ne_target_name _ _⟩
      have hm2 : entryMatches (gen j)
          ("target_" ++ gen i, FormValue.str ((heap r).convertTarget.getD "")) = false := by
        simp only [entryMatches, Bool.or_eq_false_iff, beq_eq_false_iff_ne]
        exact ⟨fun h => (file_name_ne_target_name (gen j) (gen i)) h.symm,
          fun h => hne ((target_name_inj _ _).mp h)⟩
      rw [ih (i + 1) j htail, hm1, hm2]
      by_cases hin : i + 1 ≤ j ∧ j < i + 1 + rs.length
      · rw [if_pos hin, if_pos (show i ≤ j ∧ j < i + (r :: rs).length from by
          simp only [List.length_cons]; omega)]
        simp
      · rw [if_neg hin, if_neg (show ¬(i ≤ j ∧ j < i + (r :: rs).length) from by
          simp only [List.length_cons]; omega)]
        simp

theorem any_isNone_eq_false (h : Nat → SelectedFileData) (l : List Nat)
    (hall : ∀ r ∈ l, ((h r).convertTarget).isSome = true) :
    (l.any (fun r => ((h r).convertTarget).isNone)) = false := by
  rw [List.any_eq_false]
  intro r hr
  simp [Option.isNone_iff_eq_none]
  exact Option.isSome_iff_ne_none.mp (hall r hr)

/-- The truncation condition of `onFileSelectHandle` (lines 61-64). -/
def overOf (maxFileSize maxFilesLength : Nat) (fmtB : Nat → String)
    (incoming : List FileData) (s : WidgetState) : Bool :=
  decide (s.selectedFiles.length > maxFilesLength) ||
  decide ((filterIncomingFiles maxFileSize fmtB incoming).1.length +
    s.selectedFiles.length > maxFilesLength)

/-- The accepted batch after optional truncation (line 67). -/
def newFilesOf (maxFileSize maxFilesLength : Nat) (fmtB : Nat → String)
    (incoming : List FileData) (s : WidgetState) : List FileData :=
  if overOf maxFileSize maxFilesLength fmtB incoming s then
    (filterIncomingFiles maxFileSize fmtB incoming).1.take
      (maxFilesLength - s.selectedFiles.length)
  else (filterIncomingFiles maxFileSize fmtB incoming).1

/-- The notifications fired by one run of `onFileSelectHandle`. -/
def warnsOf (maxFileSize maxFilesLength : Nat) (fmtB : Nat → String)
    (incoming : List FileData) (s : WidgetState) : List Notif :=
  if overOf maxFileSize maxFilesLength fmtB incoming s then
    (filterIncomingFiles maxFileSize fmtB incoming).2 ++
      [Notif.maxFilesWarn maxFilesLength]
  else (filterIncomingFiles maxFileSize fmtB incoming).2

theorem onFileSelectHandle_unfold (maxFileSize maxFilesLength : Nat)
    (fmtB : Nat → String) (incoming : List FileData) (s : WidgetState) :
    onFileSelectHandle maxFileSize maxFilesLength fmtB incoming s =
      if incoming.isEmpty then (s, [])
      else
        ({ heap := updHeap s.heap (createSelectedFiles s.nextRef
             (newFilesOf maxFileSize maxFilesLength fmtB incoming s))
           selectedFiles := s.selectedFiles ++ (createSelectedFiles s.nextRef
             (newFilesOf maxFileSize maxFilesLength fmtB incoming s)).map Prod.fst
           nextRef := s.nextRef + (newFilesOf maxFileSize maxFilesLength fmtB incoming s).length
           isLoading := s.isLoading },
         warnsOf maxFileSize maxFilesLength fmtB incoming s) := rfl

theorem newFilesOf_subset (maxFileSize maxFilesLength : Nat) (fmtB : Nat → String)
    (incoming : List FileData) (s : WidgetState) :
    newFilesOf maxFileSize maxFilesLength fmtB incoming s ⊆
      (filterIncomingFiles maxFileSize fmtB incoming).1 := by
  rw [newFilesOf]
  split
  · exact List.take_subset _ _
  · exact fun a ha => ha

theorem onFileSelect_new_file_mem (maxFileSize maxFilesLength : Nat)
    (fmtB : Nat → String) (incoming : List FileData) (s : WidgetState) :
    ∀ r ∈ (onFileSelectHandle maxFileSize maxFilesLength fmtB incoming s).1.selectedFiles,
      r ∉ s.selectedFiles →
      ((onFileSelectHandle maxFileSize maxFilesLength fmtB incoming s).1.heap r).file
        ∈ (filterIncomingFiles maxFileSize fmtB incoming).1 := by
  intro r hr hro
  rw [onFileSelectHandle_unfold] at hr ⊢
  by_cases hemp : incoming.isEmpty
  · rw [if_pos hemp] at hr
    exact absurd hr hro
  · rw [if_neg hemp] at hr ⊢
    simp only at hr ⊢
    have hmem : r ∈ (createSelectedFiles s.nextRef
        (newFilesOf maxFileSize maxFilesLength fmtB incoming s)).map Prod.fst :=
      (List.mem_append.mp hr).resolve_left hro
    obtain ⟨e, he, hefst⟩ := List.mem_map.mp hmem
    obtain ⟨e2, he2, he2r, heq⟩ := updHeap_mem_val s.heap _ r ⟨e, he, hefst⟩
    rw [heq]
    exact newFilesOf_subset maxFileSize maxFilesLength fmtB incoming s
      (createSelectedFiles_data _ _ e2 he2).1

/-! ## Claim theorems -/

/-- Claim C1: for every selected-files list in which at least one item has an
unset `convertTarget`, submitting fires the `target_warn` warning and does not
invoke `sendFilesToConvert` (no request is sent, no `FormData` is built). -/
theorem submit_refused_of_missing_target (gen : Nat → String) (s : WidgetState)
    (r : Nat) (hr : r ∈ s.selectedFiles)
    (hnone : (s.heap r).convertTarget = none) :
    onSubmitHandle gen s = { notifs := [Notif.targetWarn], request := none } := by
  have hany : s.selectedFiles.any (fun r => ((s.heap r).convertTarget).isNone) = true := by
    rw [List.any_eq_true]
    exact ⟨r, hr, by simp [hnone]⟩
  rw [onSubmitHandle, if_pos hany]

/-- Witness for C1 at a concrete one-item state with an unset target. -/
theorem submit_refused_of_missing_target_witness :
    onSubmitHandle genW oneWState = { notifs := [Notif.targetWarn], request := none } :=
  submit_refused_of_missing_target genW oneWState 0 (by decide) (by decide)

/-- Claim C2: when every selected item has a target, submitting builds a
payload of exactly `2 * N` fields; the item at position `k` contributes the
adjacent fields `file_<gen k>` (the raw file) and `target_<gen k>` (its target
format tag), and when the drawn identifiers are pairwise distinct, exactly two
fields of the payload carry the identifier `gen k`. -/
theorem submit_payload_pairing (gen : Nat → String) (s : WidgetState)
    (hall : ∀ r ∈ s.selectedFiles, ((s.heap r).convertTarget).isSome = true)
    (hgen : ∀ i j, i < s.selectedFiles.length → j < s.selectedFiles.length →
      gen i = gen j → i = j) :
    (onSubmitHandle gen s).request = some (buildFormData gen s.heap 0 s.selectedFiles) ∧
    (buildFormData gen s.heap 0 s.selectedFiles).length = 2 * s.selectedFiles.length ∧
    (∀ k, k < s.selectedFiles.length →
      (buildFormData gen s.heap 0 s.selectedFiles).getD (2 * k) dfltEntry =
        ("file_" ++ gen k, FormValue.file (s.heap (s.selectedFiles.getD k 0)).file) ∧
      (buildFormData gen s.heap 0 s.selectedFiles).getD (2 * k + 1) dfltEntry =
        ("target_" ++ gen k,
          FormValue.str ((s.heap (s.selectedFiles.getD k 0)).convertTarget.getD ""))) ∧
    (∀ k, k < s.selectedFiles.length →
      (buildFormData gen s.heap 0 s.selectedFiles).countP (entryMatches (gen k)) = 2) := by
  have hfalse := any_isNone_eq_false s.heap s.selectedFiles hall
  refine ⟨?_, buildFormData_length gen s.heap s.selectedFiles 0, ?_, ?_⟩
  · rw [onSubmitHandle, if_neg (by simp [hfalse])]
  · intro k hk
    have h1 := buildFormData_getD gen s.heap s.selectedFiles 0 k hk
    simpa using h1
  · intro k hk
    have hdist : ∀ k2, 0 ≤ k2 → k2 < 0 + s.selectedFiles.length → k2 ≠ k →
        gen k2 ≠ gen k := by
      intro k2 _ h2 hne hg
      exact hne (hgen k2 k (by omega) hk hg)
    rw [buildFormData_countP gen s.heap s.selectedFiles 0 k hdist, if_pos (by omega)]

/-- Witness for C2 at a concrete two-item state with distinct identifiers. -/
theorem submit_payload_pairing_witness :
    (onSubmitHandle genW twoWState).request =
      some (buildFormData genW twoWState.heap 0 twoWState.selectedFiles) :=
  (submit_payload_pairing genW twoWState (by decide)
    (by
      intro i j hi hj h
      have hi2 : i < 2 := by simpa [twoWState] using hi
      have hj2 : j < 2 := by simpa [twoWState] using hj
      interval_cases i <;> interval_cases j <;>
        first
        | rfl
        | exact absurd h (by decide))).1

/-- Claim C3: selecting a batch whose accepted files would overflow the
maximum appends exactly `maxFilesLength - M` new items (where `M` is the
already-selected count) and fires exactly one quantity warning. -/
theorem select_truncates_to_capacity (maxFileSize maxFilesLength : Nat)
    (fmtB : Nat → String) (incoming : List FileData) (s : WidgetState)
    (hM : s.selectedFiles.length ≤ maxFilesLength)
    (hover : (filterIncomingFiles maxFileSize fmtB incoming).1.length +
      s.selectedFiles.length > maxFilesLength) :
    (∃ t, (onFileSelectHandle maxFileSize maxFilesLength fmtB incoming s).1.selectedFiles =
        s.selectedFiles ++ t ∧
      t.length = maxFilesLength - s.selectedFiles.length) ∧
    ((onFileSelectHandle maxFileSize maxFilesLength fmtB incoming s).2).countP
      isMaxFilesWarn = 1 := by
  have hne : incoming.isEmpty = false := by
    cases incoming with
    | nil => simp [filterIncomingFiles] at hover; omega
    | cons f fs => rfl
  have hoverb : overOf maxFileSize maxFilesLength fmtB incoming s = true := by
    rw [overOf]
    simp only [Bool.or_eq_true, decide_eq_true_eq]
    exact Or.inr hover
  have hlen : (newFilesOf maxFileSize maxFilesLength fmtB incoming s).length =
      maxFilesLength - s.selectedFiles.length := by
    rw [newFilesOf, if_pos hoverb, List.length_take]
    exact Nat.min_eq_left (by omega)
  refine ⟨⟨(createSelectedFiles s.nextRef
      (newFilesOf maxFileSize maxFilesLength fmtB incoming s)).map Prod.fst, ?_, ?_⟩, ?_⟩
  · rw [onFileSelectHandle_unfold, if_neg (by simp [hne])]
  · rw [List.length_map, createSelectedFiles_length, hlen]
  · rw [onFileSelectHandle_unfold, if_neg (by simp [hne])]
    simp only
    rw [warnsOf, if_pos hoverb, List.countP_append, filterIncomingFiles_no_maxFilesWarn]
    rfl

/-- Witness for C3: one item selected, capacity two, three accepted images. -/
theorem select_truncates_to_capacity_witness :
    (∃ t, (onFileSelectHandle 100 2 (fun _ => "100 B")
        [⟨"c.png", 1, "image/png"⟩, ⟨"d.png", 2, "image/png"⟩, ⟨"e.png", 3, "image/png"⟩]
        oneWState).1.selectedFiles = oneWState.selectedFiles ++ t ∧
      t.length = 2 - oneWState.selectedFiles.length) ∧
    ((onFileSelectHandle 100 2 (fun _ => "100 B")
      [⟨"c.png", 1, "image/png"⟩, ⟨"d.png", 2, "image/png"⟩, ⟨"e.png", 3, "image/png"⟩]
      oneWState).2).countP isMaxFilesWarn = 1 :=
  select_truncates_to_capacity 100 2 (fun _ => "100 B")
    [⟨"c.png", 1, "image/png"⟩, ⟨"d.png", 2, "image/png"⟩, ⟨"e.png", 3, "image/png"⟩]
    oneWState (by decide) (by decide)

/-- Counterexample to C4 as stated: a non-image file whose size exceeds the
ceiling (101 > 100) is excluded, but the notification fired is the type
warning, not a size warning — the type check runs first, so no size-warning
carrying the formatted ceiling is fired for it. -/
theorem oversized_nonimage_no_size_warn :
    (⟨"a.txt", 101, "text/plain"⟩ : FileData).size > 100 ∧
    (onFileSelectHandle 100 5 (fun n => toString n ++ " B")
      [⟨"a.txt", 101, "text/plain"⟩] emptyWState).2 = [Notif.fileTypeWarn "a.txt"] ∧
    ((onFileSelectHandle 100 5 (fun n => toString n ++ " B")
      [⟨"a.txt", 101, "text/plain"⟩] emptyWState).2).countP isMaxSizeWarn = 0 ∧
    (onFileSelectHandle 100 5 (fun n => toString n ++ " B")
      [⟨"a.txt", 101, "text/plain"⟩] emptyWState).1.selectedFiles = [] := by
  decide

/-- Claim C4 (amended): for every image-typed file offered in a selection
event whose size exceeds `maxFileSize`, the file is excluded from the
selected-files state and a size warning fires carrying the
`prettyBytes`-formatted ceiling value. -/
theorem oversized_image_excluded_with_size_warn (maxFileSize maxFilesLength : Nat)
    (fmtB : Nat → String) (incoming : List FileData) (s : WidgetState)
    (f : FileData) (hf : f ∈ incoming)
    (htype : strStartsWith f.type "image/" = true)
    (hsize : f.size > maxFileSize) :
    Notif.maxSizeWarn (fmtB maxFileSize) f.name ∈
      (onFileSelectHandle maxFileSize maxFilesLength fmtB incoming s).2 ∧
    ∀ r ∈ (onFileSelectHandle maxFileSize maxFilesLength fmtB incoming s).1.selectedFiles,
      r ∉ s.selectedFiles →
      ((onFileSelectHandle maxFileSize maxFilesLength fmtB incoming s).1.heap r).file ≠ f := by
  have hne : incoming.isEmpty = false := by
    cases incoming with
    | nil => simp at hf
    | cons _ _ => rfl
  constructor
  · rw [onFileSelectHandle_unfold, if_neg (by simp [hne])]
    simp only
    rw [warnsOf]
    have hw := filterIncomingFiles_warn_size maxFileSize fmtB incoming f hf htype hsize
    split
    · exact List.mem_append_left _ hw
    · exact hw
  · intro r hr hro heq
    have hmem := onFileSelect_new_file_mem maxFileSize maxFilesLength fmtB incoming s r hr hro
    rw [heq] at hmem
    have hs := (filterIncomingFiles_sound maxFileSize fmtB incoming f hmem).2
    omega

/-- Witness for amended C4: an oversized image fires the size warning. -/
theorem oversized_image_excluded_with_size_warn_witness :
    Notif.maxSizeWarn "100 B" "big.png" ∈
      (onFileSelectHandle 100 5 (fun _ => "100 B")
        [⟨"big.png", 101, "image/png"⟩] emptyWState).2 :=
  (oversized_image_excluded_with_size_warn 100 5 (fun _ => "100 B")
    [⟨"big.png", 101, "image/png"⟩] emptyWState ⟨"big.png", 101, "image/png"⟩
    (by decide) (by decide) (by decide)).1

/-- Claim C7: for every file offered in a selection event whose MIME type does
not start with `"image/"`, the file is excluded from the selected-files state
and a type warning naming the file fires. -/
theorem nonimage_excluded_with_type_warn (maxFileSize maxFilesLength : Nat)
    (fmtB : Nat → String) (incoming : List FileData) (s : WidgetState)
    (f : FileData) (hf : f ∈ incoming)
    (htype : strStartsWith f.type "image/" = false) :
    Notif.fileTypeWarn f.name ∈
      (onFileSelectHandle maxFileSize maxFilesLength fmtB incoming s).2 ∧
    ∀ r ∈ (onFileSelectHandle maxFileSize maxFilesLength fmtB incoming s).1.selectedFiles,
      r ∉ s.selectedFiles →
      ((onFileSelectHandle maxFileSize maxFilesLength fmtB incoming s).1.heap r).file ≠ f := by
  have hne : incoming.isEmpty = false := by
    cases incoming with
    | nil => simp at hf
    | cons _ _ => rfl
  constructor
  · rw [onFileSelectHandle_unfold, if_neg (by simp [hne])]
    simp only
    rw [warnsOf]
    have hw := filterIncomingFiles_warn_type maxFileSize fmtB incoming f hf htype
    split
    · exact List.mem_append_left _ hw
    · exact hw
  · intro r hr hro heq
    have hmem := onFileSelect_new_file_mem maxFileSize maxFilesLength fmtB incoming s r hr hro
    rw [heq] at hmem
    have hs := (filterIncomingFiles_sound maxFileSize fmtB incoming f hmem).1
    rw [htype] at hs
    exact Bool.noConfusion hs

/-- Witness for C7: a text file fires the type warning naming it. -/
theorem nonimage_excluded_with_type_warn_witness :
    Notif.fileTypeWarn "a.txt" ∈
      (onFileSelectHandle 100 5 (fun _ => "100 B")
        [⟨"a.txt", 4, "text/plain"⟩] emptyWState).2 :=
  (nonimage_excluded_with_type_warn 100 5 (fun _ => "100 B")
    [⟨"a.txt", 4, "text/plain"⟩] emptyWState ⟨"a.txt", 4, "text/plain"⟩
    (by decide) (by decide)).1

/-- Counterexample to C5 as stated: set-target does modify an item object
reachable from the prior list.  At a one-item state, changing the target of
the item at reference 0 updates that object's `convertTarget` in place; a
holder of the previous `selectedFiles` array, which contains reference 0,
observes the change. -/
theorem set_target_mutates_prior_item :
    0 ∈ oneWState.selectedFiles ∧
    (oneWState.heap 0).convertTarget = none ∧
    ((onConvertTargetChangeHandle 0 "png" oneWState).1.heap 0).convertTarget = some "png" ∧
    (onConvertTargetChangeHandle 0 "png" oneWState).1.heap 0 ≠ oneWState.heap 0 := by
  decide

/-- Claim C5 (amended): append, remove and clear never mutate an item object
reachable from the prior list; set-target leaves the reference list value
unchanged and mutates exactly the matched item's `convertTarget` in place
(visible to holders of the prior list), leaving the item's file and every
other item unmodified. -/
theorem ops_mutation_visibility (maxFileSize maxFilesLength : Nat)
    (fmtB : Nat → String) (s : WidgetState)
    (hfresh : ∀ r ∈ s.selectedFiles, r < s.nextRef) :
    (∀ incoming, ∀ r ∈ s.selectedFiles,
      ((onFileSelectHandle maxFileSize maxFilesLength fmtB incoming s).1).heap r =
        s.heap r) ∧
    (∀ ref t, ∀ r ∈ s.selectedFiles, r ≠ ref →
      ((onConvertTargetChangeHandle ref t s).1).heap r = s.heap r) ∧
    (∀ ref t, ref ∈ s.selectedFiles →
      (((onConvertTargetChangeHandle ref t s).1).heap ref).file = (s.heap ref).file ∧
      (((onConvertTargetChangeHandle ref t s).1).heap ref).convertTarget = some t) ∧
    (∀ ref t, ((onConvertTargetChangeHandle ref t s).1).selectedFiles = s.selectedFiles) ∧
    (∀ ref, ∀ r ∈ s.selectedFiles,
      ((onRemoveSelectedFileHandle ref s).1).heap r = s.heap r) ∧
    (∀ r ∈ s.selectedFiles, ((onFilesClearHandle s).1).heap r = s.heap r) := by
  refine ⟨?_, ?_, ?_, ?_, fun ref r hr => rfl, fun r hr => rfl⟩
  · intro incoming r hr
    rw [onFileSelectHandle_unfold]
    split
    · rfl
    · simp only
      apply updHeap_not_mem
      intro e he
      have h1 := createSelectedFiles_ref_ge _ s.nextRef e he
      have h2 := hfresh r hr
      omega
  · intro ref t r hr hne
    simp only [onConvertTargetChangeHandle]
    split
    · rfl
    · simp only
      rw [if_neg (by simp [hne])]
  · intro ref t href
    have hidx : s.selectedFiles.findIdx? (fun r => r == ref) ≠ none := by
      rw [Ne, List.findIdx?_eq_none_iff]
      intro hall2
      have := hall2 ref href
      simp at this
    simp only [onConvertTargetChangeHandle]
    split
    · rename_i hcase
      exact absurd hcase hidx
    · simp
  · intro ref t
    simp only [onConvertTargetChangeHandle]
    split
    · rfl
    · rfl

/-- Witness for amended C5: set-target at an absent reference leaves the item
at reference 0 untouched. -/
theorem ops_mutation_visibility_witness :
    (onConvertTargetChangeHandle 5 "png" oneWState).1.heap 0 = oneWState.heap 0 :=
  (ops_mutation_visibility 100 5 (fun _ => "100 B") oneWState (by decide)).2.1
    5 "png" 0 (by decide) (by decide)

/-- Claim C6: from any state satisfying it, every operation (file selection
with filtering and truncation, set-target, remove, clear) preserves the
invariant that the selected-files list length never exceeds
`maxFilesLength`. -/
theorem selected_length_invariant (maxFileSize maxFilesLength : Nat)
    (fmtB : Nat → String) (op : FOp) (s : WidgetState)
    (h : s.selectedFiles.length ≤ maxFilesLength) :
    (applyFOp maxFileSize maxFilesLength fmtB op s).selectedFiles.length ≤
      maxFilesLength := by
  cases op with
  | select incoming =>
    show ((onFileSelectHandle maxFileSize maxFilesLength fmtB incoming s).1).selectedFiles.length ≤
      maxFilesLength
    rw [onFileSelectHandle_unfold]
    split
    · exact h
    · simp only [List.length_append, List.length_map, createSelectedFiles_length]
      by_cases hov : overOf maxFileSize maxFilesLength fmtB incoming s = true
      · rw [newFilesOf, if_pos hov, List.length_take]
        have hmin := Nat.min_le_left (maxFilesLength - s.selectedFiles.length)
          ((filterIncomingFiles maxFileSize fmtB incoming).1.length)
        omega
      · have hle : ¬((filterIncomingFiles maxFileSize fmtB incoming).1.length +
            s.selectedFiles.length > maxFilesLength) := by
          rw [overOf] at hov
          simp only [Bool.or_eq_true, decide_eq_true_eq] at hov
          tauto
        rw [newFilesOf, if_neg hov]
        omega
  | setTarget ref t =>
    show ((onConvertTargetChangeHandle ref t s).1).selectedFiles.length ≤ maxFilesLength
    simp only [onConvertTargetChangeHandle]
    split
    · exact h
    · exact h
  | remove ref =>
    exact le_trans (List.length_filter_le _ _) h
  | clear =>
    exact Nat.zero_le _

/-- Witness for C6: a concrete overflowing selection stays within capacity. -/
theorem selected_length_invariant_witness :
    (applyFOp 100 2 (fun _ => "100 B")
      (FOp.select [⟨"c.png", 1, "image/png"⟩, ⟨"d.png", 2, "image/png"⟩,
        ⟨"e.png", 3, "image/png"⟩]) oneWState).selectedFiles.length ≤ 2 :=
  selected_length_invariant 100 2 (fun _ => "100 B")
    (FOp.select [⟨"c.png", 1, "image/png"⟩, ⟨"d.png", 2, "image/png"⟩,
      ⟨"e.png", 3, "image/png"⟩]) oneWState (by decide)

/-- Claim C8: the submit handler never consults `isLoading`; with every
target set it hands a request to `sendFilesToConvert` regardless of the value
of `isLoading`. -/
theorem submit_not_blocked_while_loading (gen : Nat → String) (s : WidgetState)
    (b : Bool)
    (hall : ∀ r ∈ s.selectedFiles, ((s.heap r).convertTarget).isSome = true) :
    onSubmitHandle gen { s with isLoading := b } = onSubmitHandle gen s ∧
    ((onSubmitHandle gen { s with isLoading := b }).request).isSome = true := by
  have hfalse := any_isNone_eq_false s.heap s.selectedFiles hall
  refine ⟨rfl, ?_⟩
  rw [show onSubmitHandle gen { s with isLoading := b } = onSubmitHandle gen s from rfl]
  rw [onSubmitHandle, if_neg (by simp [hfalse])]
  rfl

/-- Witness for C8 at a concrete two-item state, flipping the loading flag. -/
theorem submit_not_blocked_while_loading_witness :
    ((onSubmitHandle genW { twoWState with isLoading := false }).request).isSome = true :=
  (submit_not_blocked_while_loading genW twoWState false (by decide)).2

/-- Claim C9: removing an item present in the list (by reference identity)
removes exactly that item and keeps every other item in its original relative
order; clearing yields the empty list. -/
theorem remove_and_clear_spec (s : WidgetState) (ref : Nat)
    (href : ref ∈ s.selectedFiles) :
    ref ∉ ((onRemoveSelectedFileHandle ref s).1).selectedFiles ∧
    ((onRemoveSelectedFileHandle ref s).1).selectedFiles.Sublist s.selectedFiles ∧
    (∀ r ∈ s.selectedFiles, r ≠ ref →
      r ∈ ((onRemoveSelectedFileHandle ref s).1).selectedFiles) ∧
    (s.selectedFiles.Nodup →
      ((onRemoveSelectedFileHandle ref s).1).selectedFiles = s.selectedFiles.erase ref) ∧
    ((onFilesClearHandle s).1).selectedFiles = [] := by
  refine ⟨?_, List.filter_sublist _, ?_, ?_, rfl⟩
  · simp [onRemoveSelectedFileHandle, List.mem_filter]
  · intro r hr hne
    simp only [onRemoveSelectedFileHandle]
    rw [List.mem_filter]
    exact ⟨hr, by simp [hne]⟩
  · intro hnd
    exact (hnd.erase_eq_filter ref).symm

/-- Witness for C9: removing the first of two items leaves the second. -/
theorem remove_and_clear_spec_witness :
    0 ∉ ((onRemoveSelectedFileHandle 0 twoWState).1).selectedFiles :=
  (remove_and_clear_spec twoWState 0 (by decide)).1

/-- Claim C10: set-target with an object that is not in the list (by
reference identity) returns the list unchanged, modifies no item, and fires
no notification. -/
theorem set_target_absent_is_noop (s : WidgetState) (ref : Nat) (t : String)
    (h : ref ∉ s.selectedFiles) :
    onConvertTargetChangeHandle ref t s = (s, []) := by
  have hidx : s.selectedFiles.findIdx? (fun r => r == ref) = none := by
    rw [List.findIdx?_eq_none_iff]
    intro x hx
    simp only [beq_eq_false_iff_ne, ne_eq]
    intro heq
    exact h (heq ▸ hx)
  simp [onConvertTargetChangeHandle, hidx]

/-- Witness for C10 at a concrete state and an absent reference. -/
theorem set_target_absent_is_noop_witness :
    onConvertTargetChangeHandle 5 "png" oneWState = (oneWState, []) :=
  set_target_absent_is_noop oneWState 5 "png" (by decide)
